import Mathlib

/-!
Verification of the budgie-cli RAG subsystem.

The definitions below are a shallow embedding of the Go sources:
`pkg/rag/search.go` (search-agent creation and similarity search),
`pkg/config` (configuration), and the `cmd` layer
(`RunGenerateEmbeddings`, `processQuestion`, `RunAsk`).  External
collaborators (file system, embedding model, the budgie agent library)
are modelled as explicit environment records of `Except`-valued
functions.  The four chunking functions and the vector-store search that
live in the external `budgies-nest/budgie` library are modelled from the
specification, as marked in their doc comments.
-/

/-! ### Go string and path helpers -/

/-- Model of Go `strings.HasPrefix s pre`. -/
def goHasPre (s pre : String) : Bool :=
  pre.data.isPrefixOf s.data

/-- Model of Go `strings.TrimPrefix s pre`: drops `pre` when it is a prefix,
otherwise returns `s` unchanged. -/
def goTrimPre (s pre : String) : String :=
  if goHasPre s pre then (s.data.drop pre.data.length).asString else s

/-- Model of Go `strings.Join elems sep`. -/
def goJoin (elems : List String) (sep : String) : String :=
  match elems with
  | [] => ""
  | x :: xs => xs.foldl (fun acc e => acc ++ sep ++ e) x

/-- Splits a character list at every occurrence of a separator character. -/
def splitChar (sep : Char) : List Char → List (List Char)
  | [] => [[]]
  | c :: rest =>
    let r := splitChar sep rest
    if c = sep then [] :: r
    else
      match r with
      | [] => [[c]]
      | h :: t => (c :: h) :: t

/-- Model of Go `filepath.Base`: the last non-empty slash-separated
component; `"."` for the empty path, `"/"` when the path is all slashes. -/
def baseName (path : String) : String :=
  if path = "" then "."
  else
    match ((splitChar '/' path.data).filter (· ≠ [])).getLast? with
    | some c => c.asString
    | none => "/"

/-- Little-endian decimal digits of `n` as characters, with explicit fuel so
that the definition is kernel-reducible. -/
def decimalDigitsAux : Nat → Nat → List Char
  | 0, _ => []
  | _ + 1, 0 => []
  | fuel + 1, n + 1 => Nat.digitChar ((n + 1) % 10) :: decimalDigitsAux fuel ((n + 1) / 10)

/-- Model of Go `fmt.Sprintf "%d" n` for a natural number: standard decimal
notation. -/
def natDecimal (n : Nat) : String :=
  if n = 0 then "0" else ((decimalDigitsAux n n).reverse).asString

/-- Whitespace-trimming on character lists (model of Go `strings.TrimSpace`). -/
def trimChars (cs : List Char) : List Char :=
  ((cs.dropWhile Char.isWhitespace).reverse.dropWhile Char.isWhitespace).reverse

/-! ### Data model -/

/-- One persisted embedding record: the on-disk unit
`(id, content, embedding vector)`.  Vector components are modelled as
exact rationals standing in for Go `float64`. -/
structure EmbeddingRecord where
  id : String
  content : String
  vector : List ℚ
  deriving DecidableEq, Repr

/-- The in-memory state of a budgie agent that matters to this subsystem:
its loaded memory vector store. -/
structure Agent where
  records : List EmbeddingRecord
  deriving DecidableEq

/-- Model of `pkg/config.Config`: the configuration fields consumed by the RAG
subsystem. -/
structure Config where
  model : String
  embeddingModel : String
  cosineLimit : ℚ
  temperature : ℚ
  baseURL : String
  deriving DecidableEq

/-- Post-processing performed by `pkg/config.LoadConfig`: a zero cosine limit defaults
to `0.7`. -/
def applyCosineDefault (c : Config) : Config :=
  if c.cosineLimit = 0 then { c with cosineLimit := 7 / 10 } else c

/-! ### `pkg/rag/search.go` -/

/-- The external effects consulted by `CreateSearchAgent` and
`SearchSimilarities`: whether `.budgie/embeddings.json` exists, the result
of `agents.NewAgent`, of `LoadMemoryVectorStore`, and of the library call
`RAGMemorySearchSimilaritiesWithText`. -/
structure SearchEnv where
  embeddingsFileExists : Bool
  newAgent : Except String Agent
  loadStore : Agent → Except String Agent
  ragSearch : Agent → String → ℚ → Except String (List String)

/-- Model of `rag.CreateSearchAgent` from `pkg/rag/search.go`: returns `none` without
error when the embeddings file is absent; errors when the config has no
embedding model; otherwise creates the agent and loads the store. -/
def createSearchAgent (env : SearchEnv) (config : Config) : Except String (Option Agent) :=
  if env.embeddingsFileExists = false then .ok none
  else if config.embeddingModel = "" then .error "embedding-model not specified in config file"
  else
    match env.newAgent with
    | .error e => .error ("error creating search agent: " ++ e)
    | .ok agent =>
      match env.loadStore agent with
      | .error e => .error ("error loading vector store: " ++ e)
      | .ok loaded => .ok (some loaded)

/-- Model of `rag.SearchSimilarities` from `pkg/rag/search.go`: a `none` agent yields
an empty result without error; otherwise delegates to the library search
with `config.CosineLimit` as threshold. -/
def searchSimilarities (env : SearchEnv) (question : String) (searchAgent : Option Agent)
    (config : Config) : Except String (List String) :=
  match searchAgent with
  | none => .ok []
  | some agent =>
    match env.ragSearch agent question config.cosineLimit with
    | .error e => .error ("error searching similarities: " ++ e)
    | .ok similarities => .ok similarities

/-! ### Chunking strategies

`RunGenerateEmbeddings` dispatches to four splitting functions of the
external `budgies-nest/budgie` library (`rag.ChunkText`,
`rag.SplitTextWithDelimiter`, `rag.SplitMarkdownBySections`,
`rag.ChunkWithMarkdownHierarchy`), whose sources are not part of this
repository; they are modelled from the specification below.  The
whole-file strategy is implemented inline in `RunGenerateEmbeddings`
itself and is embedded directly in `chunksFor`. -/

/-- Fixed-size windows over a character list: a full window of `size`
characters, then advance by `step`; a final shorter remainder is kept
whole.  Fuel keeps the definition kernel-reducible. -/
def chunkTextAux : Nat → List Char → Nat → Nat → List (List Char)
  | 0, _, _, _ => []
  | fuel + 1, cs, size, step =>
    if cs.length = 0 then []
    else if cs.length ≤ size then [cs]
    else cs.take size :: chunkTextAux fuel (cs.drop step) size step

/-- Modelled from the spec: `rag.ChunkText` of the external budgie library
(fixed-size chunking).  Produces chunks of exactly `chunkSize` characters
advancing by `chunkSize - overlap` per step, so each chunk after the first
repeats the last `overlap` characters of the previous one; the last chunk
may be shorter; empty input produces no chunks. -/
def chunkText (content : String) (chunkSize overlap : Int) : List String :=
  let size := chunkSize.toNat
  let step := max (chunkSize - overlap).toNat 1
  (chunkTextAux content.data.length content.data size step).map List.asString

/-- Prepends a character to the first fragment of a split, starting a new
fragment when there is none. -/
def consHead (c : Char) : List (List Char) → List (List Char)
  | [] => [[c]]
  | h :: t => (c :: h) :: t

/-- Splits a character list at every occurrence of a delimiter substring,
with fuel for kernel-reducibility. -/
def splitDelimAux (delim : List Char) : Nat → List Char → List (List Char)
  | _, [] => [[]]
  | 0, cs => [cs]
  | fuel + 1, c :: rest =>
    if delim.isPrefixOf (c :: rest) then
      [] :: splitDelimAux delim fuel ((c :: rest).drop delim.length)
    else consHead c (splitDelimAux delim fuel rest)

/-- Modelled from the spec: `rag.SplitTextWithDelimiter` of the external
budgie library.  Splits on every literal occurrence of the delimiter;
fragments that are empty after trimming are dropped. -/
def splitTextWithDelimiter (content delimiter : String) : List String :=
  ((splitDelimAux delimiter.data content.data.length content.data).map
      (fun cs => (trimChars cs).asString)).filter (· ≠ "")

/-- Whether a markdown line is a heading line (starts with `#`). -/
def isHeadingLine (line : List Char) : Bool :=
  match line with
  | '#' :: _ => true
  | _ => false

/-- Whether the first line of a line group is a heading. -/
def startsWithHeading : List (List Char) → Bool
  | [] => false
  | l :: _ => isHeadingLine l

/-- Joins line fragments back with newline separators. -/
def joinLinesChars : List (List Char) → List Char
  | [] => []
  | l :: ls =>
    match ls with
    | [] => l
    | _ => l ++ '\n' :: joinLinesChars ls

/-- Groups markdown lines into sections: every heading line starts a new
section, lines before the first heading form a preamble section. -/
def groupSections : List (List Char) → List (List (List Char))
  | [] => []
  | l :: ls =>
    match groupSections ls with
    | [] => [[l]]
    | g :: rest => if startsWithHeading g then [l] :: g :: rest else (l :: g) :: rest

/-- Modelled from the spec: `rag.SplitMarkdownBySections` of the external
budgie library.  Splits strictly at heading boundaries, discarding
hierarchy metadata; sections that are empty after trimming are dropped. -/
def splitMarkdownBySections (content : String) : List String :=
  ((groupSections (splitChar '\n' content.data)).map
      (fun sec => (trimChars (joinLinesChars sec)).asString)).filter (· ≠ "")

/-- The number of leading `#` characters of a heading line. -/
def headingLevel (line : List Char) : Nat :=
  (line.takeWhile (· = '#')).length

/-- The title of a heading line: the text after the leading `#`s, trimmed. -/
def headingTitle (line : List Char) : String :=
  (trimChars (line.dropWhile (· = '#'))).asString

/-- A markdown section under construction: immediate heading title, ancestor
titles (root first) and body text. -/
structure MdSection where
  title : String
  hierarchy : List String
  body : List Char
  deriving DecidableEq

/-- Closes the current section: emits it when its trimmed body is non-empty.
The stack holds `(level, title)` pairs, innermost first. -/
def closeSection (stack : List (Nat × String)) (bodyRev : List (List Char)) : List MdSection :=
  let body := trimChars (joinLinesChars bodyRev.reverse)
  if body = [] then []
  else
    match stack with
    | [] => [⟨"", [], body⟩]
    | (_, title) :: anc => [⟨title, (anc.map Prod.snd).reverse, body⟩]

/-- Walks markdown lines with a stack of ancestor headings, emitting one
section per heading with non-empty direct content. -/
def hierChunksAux : List (List Char) → List (Nat × String) → List (List Char) → List MdSection
  | [], stack, bodyRev => closeSection stack bodyRev
  | l :: ls, stack, bodyRev =>
    if isHeadingLine l then
      closeSection stack bodyRev ++
        hierChunksAux ls
          ((headingLevel l, headingTitle l) :: stack.dropWhile (fun p => headingLevel l ≤ p.1))
          []
    else hierChunksAux ls stack (l :: bodyRev)

/-- Renders one hierarchy section as the labelled `TITLE:`/`HIERARCHY:`/
`CONTENT:` record described by the spec (and parsed back by
`rag.DisplaySimilarities` in `pkg/rag/search.go`). -/
def renderHierChunk (s : MdSection) : String :=
  "TITLE: " ++ s.title ++ "\nHIERARCHY: " ++ goJoin s.hierarchy " > " ++
    "\nCONTENT: " ++ s.body.asString

/-- Modelled from the spec: `rag.ChunkWithMarkdownHierarchy` of the external
budgie library.  Parses heading lines into a stack of ancestor titles and
emits one labelled chunk per leaf section. -/
def chunkWithMarkdownHierarchy (content : String) : List String :=
  (hierChunksAux (splitChar '\n' content.data) [] []).map renderHierChunk

/-! ### `RunGenerateEmbeddings` -/

/-- The flag values read by `RunGenerateEmbeddings` (Go `int` flags are
modelled as `Int`, since cobra accepts negative values). -/
structure GenFlags where
  markdownHierarchy : Bool
  markdownSections : Bool
  delimiter : String
  chunkSize : Int
  overlap : Int
  extension : String
  files : Bool
  deriving DecidableEq

/-- The chunking-method counter of `RunGenerateEmbeddings` (lines 53-69). -/
def chunkingMethods (f : GenFlags) : Nat :=
  (if f.markdownHierarchy then 1 else 0) + (if f.markdownSections then 1 else 0) +
    (if f.delimiter ≠ "" then 1 else 0) + (if f.chunkSize > 0 then 1 else 0) +
    (if f.files then 1 else 0)

/-- The flag validation of `RunGenerateEmbeddings` (lines 53-86), performed
before the config file is loaded and before any docs file is read. -/
def validateFlags (f : GenFlags) : Except String Unit :=
  if chunkingMethods f > 1 then
    .error "cannot use multiple chunking methods simultaneously (--markdown-hierarchy, --markdown-sections, --delimiter, --chunk-size, --files)"
  else if f.overlap > 0 ∧ f.chunkSize = 0 then
    .error "--overlap flag requires --chunk-size to be specified"
  else if f.chunkSize > 0 ∧ f.overlap ≥ f.chunkSize then
    .error "--overlap must be less than --chunk-size"
  else if f.extension ≠ "" ∧ f.delimiter = "" ∧ f.chunkSize = 0 ∧ f.files = false then
    .error "--extension flag can only be used with --delimiter, --chunk-size, or --files methods"
  else .ok ()

/-- The chunking dispatch of `RunGenerateEmbeddings` (lines 162-175): the
whole-file branch is inline in the Go source (a one-element slice holding
the whole content, with no emptiness check), the other four branches call
the library. -/
def chunksFor (f : GenFlags) (content : String) : List String :=
  if f.files then [content]
  else if f.chunkSize > 0 then chunkText content f.chunkSize f.overlap
  else if f.delimiter ≠ "" then splitTextWithDelimiter content f.delimiter
  else if f.markdownSections then splitMarkdownBySections content
  else chunkWithMarkdownHierarchy content

/-- The file-extension resolution of `RunGenerateEmbeddings` (lines 133-140):
`.md` by default; the `--extension` value, dot-normalized, for the
delimiter, fixed-size and whole-file methods. -/
def fileExtensionOf (f : GenFlags) : String :=
  if f.extension ≠ "" ∧ (f.delimiter ≠ "" ∨ f.chunkSize > 0 ∨ f.files) then
    if goHasPre f.extension "." then f.extension else "." ++ f.extension
  else ".md"

/-- The chunk id synthesized at line 181:
`fmt.Sprintf("%s-chunk-%d", filepath.Base(filePath), idx+1)`. -/
def chunkID (filePath : String) (idx : Nat) : String :=
  baseName filePath ++ "-chunk-" ++ natDecimal (idx + 1)

/-- The external effects of a `generate-embeddings` run: config loading,
agent creation, file discovery, file reading, the embedding call
(`CreateAndSaveEmbeddingFromText`) and the final persist. -/
structure GenEnv where
  loadConfig : Except String Config
  newAgent : Except String Unit
  findFiles : String → String → Except String (List String)
  readFile : String → Except String String
  embed : String → Except String (List ℚ)
  persist : List EmbeddingRecord → Except String Unit

/-- The inner chunk loop of `RunGenerateEmbeddings` (lines 180-192): each
chunk is embedded and appended to the store with its synthesized id; an
embedding failure skips that chunk and continues. -/
def embedChunks (embed : String → Except String (List ℚ)) (filePath : String) :
    List (Nat × String) → List EmbeddingRecord → Nat → List EmbeddingRecord × Nat
  | [], store, count => (store, count)
  | (idx, chunk) :: rest, store, count =>
    match embed chunk with
    | .error _ => embedChunks embed filePath rest store count
    | .ok vec => embedChunks embed filePath rest
        (store ++ [⟨chunkID filePath idx, chunk, vec⟩]) (count + 1)

/-- The outer file loop of `RunGenerateEmbeddings` (lines 150-193): a read
failure skips that file and continues. -/
def indexLoop (read : String → Except String String)
    (embed : String → Except String (List ℚ)) (flags : GenFlags) :
    List String → List EmbeddingRecord → Nat → List EmbeddingRecord × Nat
  | [], store, count => (store, count)
  | f :: rest, store, count =>
    match read f with
    | .error _ => indexLoop read embed flags rest store count
    | .ok content =>
      let p := embedChunks embed f (chunksFor flags content).enum store count
      indexLoop read embed flags rest p.1 p.2

/-- The record one indexed chunk contributes: `none` when its embedding
call fails. -/
def embedRecord (embed : String → Except String (List ℚ)) (filePath : String)
    (p : Nat × String) : Option EmbeddingRecord :=
  match embed p.2 with
  | .error _ => none
  | .ok vec => some ⟨chunkID filePath p.1, p.2, vec⟩

/-- The records one file contributes to the store: none on read failure,
otherwise one record per chunk whose embedding call succeeds. -/
def perFileRecords (read : String → Except String String)
    (embed : String → Except String (List ℚ)) (flags : GenFlags)
    (filePath : String) : List EmbeddingRecord :=
  match read filePath with
  | .error _ => []
  | .ok content =>
    (chunksFor flags content).enum.filterMap (embedRecord embed filePath)

/-- Model of `RunGenerateEmbeddings` (after the out-of-scope path resolution):
validation, config load, agent creation, file discovery, the indexing
loop over a freshly reset store, and the terminal persist.  Returns the
final store and the reported chunk count. -/
def runGenerateEmbeddings (env : GenEnv) (flags : GenFlags) (docsPath : String) :
    Except String (List EmbeddingRecord × Nat) := do
  let () ← validateFlags flags
  let config ← env.loadConfig
  if config.embeddingModel = "" then
    throw "embedding-model not specified in config file"
  let () ← env.newAgent
  let foundFiles ← env.findFiles docsPath (fileExtensionOf flags)
  let res := indexLoop env.readFile env.embed flags foundFiles [] 0
  let () ← env.persist res.1
  return res

/-! ### `processQuestion` and the `RunAsk` interactive loop -/

/-- Chat message roles of the openai-go message constructors used by the
`cmd` layer. -/
inductive Role where
  | system
  | user
  | assistant
  deriving DecidableEq

/-- One chat message of the conversation being assembled. -/
structure ChatMessage where
  role : Role
  content : String
  deriving DecidableEq

/-- The synthetic RAG context message content built at lines 282 and 617:
the fixed label followed by the result texts joined with a blank-line
separator. -/
def contextMessage (similarities : List String) : String :=
  "Relevant context from documentation:\n\n" ++ goJoin similarities "\n\n"

/-- The similarity list a query path ends up with (lines 248-260 and
598-610): empty when search-agent creation fails (warning only), when the
agent is nil, or when the search itself fails (warning only). -/
def computeSimilarities (env : SearchEnv) (config : Config) (question : String) : List String :=
  match createSearchAgent env config with
  | .error _ => []
  | .ok none => []
  | .ok (some agent) =>
    match searchSimilarities env question (some agent) config with
    | .error _ => []
    | .ok sims => sims

/-- The external effects consulted by `processQuestion`: config loading,
file reading, and the search environment. -/
structure AskEnv where
  loadConfig : Except String Config
  readFile : String → Except String String
  searchEnv : SearchEnv

/-- Model of `processQuestion` (single-question mode), up to the completion call:
loads config and system instructions, performs the RAG search when
requested, and assembles the message list.  The synthetic context message
is appended with the user role (line 283). -/
def processQuestion (env : AskEnv) (question systemFile useFile : String)
    (ragEnabled : Bool) : Except String (List ChatMessage) := do
  let config ← env.loadConfig
  let systemInstructions ← env.readFile systemFile
  let ragRequested := ragEnabled || goHasPre question "#rag "
  let actualQuestion := goTrimPre question "#rag "
  let similarities :=
    if ragRequested then computeSimilarities env.searchEnv config actualQuestion else []
  let messages := [ChatMessage.mk Role.system systemInstructions]
  let messages ←
    if useFile ≠ "" then do
      let c ← env.readFile useFile
      pure (messages ++ [ChatMessage.mk Role.system c])
    else pure messages
  let messages :=
    if similarities.length > 0 then
      messages ++ [ChatMessage.mk Role.user (contextMessage similarities)]
    else messages
  return messages ++ [ChatMessage.mk Role.user actualQuestion]

/-- One iteration of the `RunAsk` interactive prompt loop (lines 586-623),
from reading a plain question to appending it to the history: the same
RAG search, but the synthetic context message is appended with the system
role (line 618). -/
def runAskLoopStep (env : SearchEnv) (config : Config) (messages : List ChatMessage)
    (userInput : String) (ragEnabled : Bool) : List ChatMessage :=
  let ragRequested := ragEnabled || goHasPre userInput "#rag "
  let actualUserInput := goTrimPre userInput "#rag "
  let similarities :=
    if ragRequested then computeSimilarities env config actualUserInput else []
  let messages :=
    if similarities.length > 0 then
      messages ++ [ChatMessage.mk Role.system (contextMessage similarities)]
    else messages
  messages ++ [ChatMessage.mk Role.user actualUserInput]

/-! ### Similarity search of the embedding store

Here `SearchSimilarities` delegates to the external library function
`RAGMemorySearchSimilaritiesWithText`; the store-level search it performs
is modelled from the spec (§4.2) below.  Scores are exact rationals
standing in for Go `float64` cosine similarities; the cosine function
itself is an explicit parameter, as the spec treats vector math as
supplied by the embedding layer. -/

/-- The ranking order on `(insertion index, content, score)` triples:
higher score first, ties broken by lower (earlier) insertion index. -/
def searchLE (a b : Nat × String × ℚ) : Prop :=
  b.2.2 < a.2.2 ∨ (a.2.2 = b.2.2 ∧ a.1 ≤ b.1)

instance : DecidableRel searchLE :=
  fun a b => inferInstanceAs (Decidable (b.2.2 < a.2.2 ∨ (a.2.2 = b.2.2 ∧ a.1 ≤ b.1)))

instance : IsTotal (Nat × String × ℚ) searchLE := by
  constructor
  intro a b
  rcases lt_trichotomy a.2.2 b.2.2 with h | h | h
  · exact Or.inr (Or.inl h)
  · rcases Nat.le_total a.1 b.1 with h2 | h2
    · exact Or.inl (Or.inr ⟨h, h2⟩)
    · exact Or.inr (Or.inr ⟨h.symm, h2⟩)
  · exact Or.inl (Or.inl h)

instance : IsTrans (Nat × String × ℚ) searchLE := by
  constructor
  intro a b c hab hbc
  rcases hab with h | ⟨h, h2⟩ <;> rcases hbc with g | ⟨g, g2⟩
  · exact Or.inl (g.trans h)
  · exact Or.inl (g ▸ h)
  · exact Or.inl (h ▸ g)
  · exact Or.inr ⟨h.trans g, h2.trans g2⟩

/-- Modelled from the spec (§4.2): the store search, before dropping the
insertion-index tags.  Scores every record by cosine similarity against
the query vector, keeps `threshold ≤ score`, and sorts by `searchLE`
(descending score, ties in insertion order). -/
def storeSearchTagged (cos : List ℚ → List ℚ → ℚ) (store : List EmbeddingRecord)
    (queryVector : List ℚ) (threshold : ℚ) : List (Nat × String × ℚ) :=
  List.insertionSort searchLE
    (((store.enum).map (fun p => (p.1, p.2.content, cos queryVector p.2.vector))).filter
      (fun x => threshold ≤ x.2.2))

/-- Modelled from the spec (§4.2): `search(queryVector, threshold)` returns
the contents of the surviving records paired with their scores, ranked. -/
def storeSearch (cos : List ℚ → List ℚ → ℚ) (store : List EmbeddingRecord)
    (queryVector : List ℚ) (threshold : ℚ) : List (String × ℚ) :=
  (storeSearchTagged cos store queryVector threshold).map (fun x => x.2)

/-! ### Concrete inputs for witnesses and counterexamples -/

/-- An environment in which the embeddings file is absent. -/
def searchEnvNoIndex : SearchEnv :=
  { embeddingsFileExists := false, newAgent := .error "unused",
    loadStore := fun a => .ok a, ragSearch := fun _ _ _ => .ok [] }

/-- An environment in which the embeddings file exists and searching always
returns two fixed fragments. -/
def searchEnvTwoDocs : SearchEnv :=
  { embeddingsFileExists := true, newAgent := .ok ⟨[]⟩,
    loadStore := fun a => .ok a, ragSearch := fun _ _ _ => .ok ["doc one", "doc two"] }

/-- An environment in which the embeddings file exists but searching finds
nothing. -/
def searchEnvNoHits : SearchEnv :=
  { embeddingsFileExists := true, newAgent := .ok ⟨[]⟩,
    loadStore := fun a => .ok a, ragSearch := fun _ _ _ => .ok [] }

/-- A concrete configuration with no embedding model. -/
def configNoModel : Config :=
  { model := "m", embeddingModel := "", cosineLimit := 7 / 10,
    temperature := 0, baseURL := "http://localhost" }

/-- A concrete well-formed configuration. -/
def configOk : Config :=
  { model := "m", embeddingModel := "mxbai-embed-large", cosineLimit := 7 / 10,
    temperature := 0, baseURL := "http://localhost" }

/-- Flags selecting the whole-file chunking method only. -/
def flagsWholeFile : GenFlags :=
  { markdownHierarchy := false, markdownSections := false, delimiter := "",
    chunkSize := 0, overlap := 0, extension := "", files := true }

/-- Flags selecting no explicit method (markdown hierarchy by default). -/
def flagsDefault : GenFlags :=
  { markdownHierarchy := false, markdownSections := false, delimiter := "",
    chunkSize := 0, overlap := 0, extension := "", files := false }

/-- Flags with a positive chunk size and a negative overlap: they violate
the invariant `0 <= overlap < chunkSize` yet pass validation. -/
def flagsNegOverlap : GenFlags :=
  { markdownHierarchy := false, markdownSections := false, delimiter := "",
    chunkSize := 2, overlap := -1, extension := "", files := false }

/-- Flags with overlap given without chunk-size. -/
def flagsOverlapNoSize : GenFlags :=
  { markdownHierarchy := false, markdownSections := false, delimiter := "",
    chunkSize := 0, overlap := 3, extension := "", files := false }

/-- Flags selecting two chunking methods at once. -/
def flagsTwoMethods : GenFlags :=
  { markdownHierarchy := true, markdownSections := false, delimiter := "",
    chunkSize := 0, overlap := 0, extension := "", files := true }

/-- A generate-embeddings environment whose docs directory is empty. -/
def genEnvEmptyDocs : GenEnv :=
  { loadConfig := .ok configOk, newAgent := .ok (),
    findFiles := fun _ _ => .ok [], readFile := fun _ => .error "unreadable",
    embed := fun _ => .ok [1], persist := fun _ => .ok () }

/-- Flags selecting fixed-size chunking with size 2 and no overlap. -/
def flagsSizeTwo : GenFlags :=
  { markdownHierarchy := false, markdownSections := false, delimiter := "",
    chunkSize := 2, overlap := 0, extension := "", files := false }

/-- A generate-embeddings environment with three discovered files: one file
is unreadable, and one chunk of another file fails to embed. -/
def genEnvMixed : GenEnv :=
  { loadConfig := .ok configOk, newAgent := .ok (),
    findFiles := fun _ _ => .ok ["docs/a.md", "docs/bad.md", "docs/b.md"],
    readFile := fun p =>
      if p = "docs/bad.md" then .error "permission denied"
      else if p = "docs/a.md" then .ok "abcd" else .ok "efgh",
    embed := fun c => if c = "ef" then .error "model unavailable" else .ok [1],
    persist := fun _ => .ok () }

/-- The store `genEnvMixed` is expected to produce: both chunks of `a.md`,
nothing from the unreadable `bad.md`, and only the second chunk of `b.md`
(the first fails to embed, and the surviving chunk keeps index 2). -/
def storeMixedExpected : List EmbeddingRecord :=
  [⟨"a.md-chunk-1", "ab", [1]⟩, ⟨"a.md-chunk-2", "cd", [1]⟩, ⟨"b.md-chunk-2", "gh", [1]⟩]

/-- A concrete ask environment whose search finds two fragments. -/
def askEnvTwoDocs : AskEnv :=
  { loadConfig := .ok configOk, readFile := fun _ => .ok "You are budgie.",
    searchEnv := searchEnvTwoDocs }

/-- A concrete ask environment whose search finds nothing. -/
def askEnvNoHits : AskEnv :=
  { loadConfig := .ok configOk, readFile := fun _ => .ok "You are budgie.",
    searchEnv := searchEnvNoHits }

/-- A concrete ask environment whose embeddings file exists but whose
config lacks the embedding model. -/
def askEnvNoModel : AskEnv :=
  { loadConfig := .ok configNoModel, readFile := fun _ => .ok "You are budgie.",
    searchEnv := searchEnvNoHits }

/-- A small sample store for exercising the search: two tied scores (with
distinct insertion positions), one top score and one score below the
threshold 7. -/
def storeSample : List EmbeddingRecord :=
  [⟨"r1", "A", [9]⟩, ⟨"r2", "B", [5]⟩, ⟨"r3", "C", [9]⟩, ⟨"r4", "D", [10]⟩]

/-- A concrete stand-in scorer: the first component of the record vector. -/
def cosHead : List ℚ → List ℚ → ℚ := fun _ v => v.headD 0

/-! ## Theorems -/

/-! ### Claim C1 -/

/-- Claim C1: when the embeddings file does not exist, `CreateSearchAgent`
returns a nil agent and nil error, and `SearchSimilarities` on a nil agent
returns an empty result and nil error, for every question, configuration
and environment — so a plain conversational query is never broken by the
absence of an index. -/
theorem createSearchAgent_missing_index_silent (env : SearchEnv) (config : Config)
    (h : env.embeddingsFileExists = false) :
    createSearchAgent env config = .ok none ∧
    ∀ (env2 : SearchEnv) (q : String) (cfg2 : Config),
      searchSimilarities env2 q none cfg2 = .ok [] := by
  refine ⟨?_, fun _ _ _ => rfl⟩
  unfold createSearchAgent
  rw [h]
  rfl

/-- Concrete witness for claim C1. -/
theorem createSearchAgent_missing_index_silent_witness :
    createSearchAgent searchEnvNoIndex configNoModel = .ok none ∧
    searchSimilarities searchEnvNoIndex "what is budgie?" none configNoModel = .ok [] :=
  ⟨(createSearchAgent_missing_index_silent searchEnvNoIndex configNoModel rfl).1,
   (createSearchAgent_missing_index_silent searchEnvNoIndex configNoModel rfl).2
     searchEnvNoIndex "what is budgie?" configNoModel⟩

/-! ### Claim C6 -/

/-- Claim C6: an invocation of generate-embeddings that selects more than
one chunking method returns an error for every environment and docs path,
hence before the config file is loaded and before any docs file is read
(the result does not depend on `env` at all). -/
theorem runGenerateEmbeddings_multiple_methods_error (flags : GenFlags)
    (h : 1 < chunkingMethods flags) (env : GenEnv) (docsPath : String) :
    runGenerateEmbeddings env flags docsPath =
      .error "cannot use multiple chunking methods simultaneously (--markdown-hierarchy, --markdown-sections, --delimiter, --chunk-size, --files)" := by
  unfold runGenerateEmbeddings validateFlags
  rw [if_pos h]
  rfl

/-- Concrete witness for claim C6. -/
theorem runGenerateEmbeddings_multiple_methods_error_witness :
    1 < chunkingMethods flagsTwoMethods ∧
    runGenerateEmbeddings genEnvEmptyDocs flagsTwoMethods ".budgie/docs" =
      .error "cannot use multiple chunking methods simultaneously (--markdown-hierarchy, --markdown-sections, --delimiter, --chunk-size, --files)" :=
  ⟨by decide,
   runGenerateEmbeddings_multiple_methods_error flagsTwoMethods (by decide)
     genEnvEmptyDocs ".budgie/docs"⟩

/-! ### Claim C5 -/

/-- Counterexample for claim C5: the flags `--chunk-size 2 --overlap -1`
violate the invariant `0 <= overlap < chunkSize`, yet validation passes
and the command proceeds to indexing and succeeds. -/
theorem validateFlags_negative_overlap_counterexample :
    (0 < flagsNegOverlap.chunkSize ∧
      ¬(0 ≤ flagsNegOverlap.overlap ∧ flagsNegOverlap.overlap < flagsNegOverlap.chunkSize)) ∧
    validateFlags flagsNegOverlap = .ok () ∧
    runGenerateEmbeddings genEnvEmptyDocs flagsNegOverlap ".budgie/docs" = .ok ([], 0) :=
  ⟨by decide, rfl, rfl⟩

/-- Claim C5 as amended: generate-embeddings rejects, independently of the
environment (hence before any I/O), every invocation with `overlap > 0`
and no chunk size, and every invocation with `chunkSize > 0` and
`overlap >= chunkSize`; a negative overlap with a positive chunk size is
not rejected. -/
theorem validateFlags_overlap_rejection (flags : GenFlags)
    (h : (0 < flags.overlap ∧ flags.chunkSize = 0) ∨
         (0 < flags.chunkSize ∧ flags.chunkSize ≤ flags.overlap))
    (env : GenEnv) (docsPath : String) :
    ∃ msg, runGenerateEmbeddings env flags docsPath = .error msg := by
  by_cases hm : 1 < chunkingMethods flags
  · exact ⟨_, by unfold runGenerateEmbeddings validateFlags; rw [if_pos hm]; rfl⟩
  · unfold runGenerateEmbeddings validateFlags
    rw [if_neg hm]
    rcases h with ⟨h1, h2⟩ | ⟨h1, h2⟩
    · rw [if_pos ⟨h1, h2⟩]
      exact ⟨_, rfl⟩
    · rw [if_neg (by rintro ⟨_, hz⟩; omega)]
      rw [if_pos ⟨h1, h2⟩]
      exact ⟨_, rfl⟩

/-- Concrete witness for claim C5 (amended): both rejected families, at
concrete flag values. -/
theorem validateFlags_overlap_rejection_witness :
    (∃ msg, runGenerateEmbeddings genEnvEmptyDocs flagsOverlapNoSize ".budgie/docs" = .error msg) ∧
    ∃ msg, runGenerateEmbeddings genEnvEmptyDocs
      { flagsSizeTwo with overlap := 5 } ".budgie/docs" = .error msg :=
  ⟨validateFlags_overlap_rejection flagsOverlapNoSize (Or.inl ⟨by decide, rfl⟩)
      genEnvEmptyDocs ".budgie/docs",
   validateFlags_overlap_rejection { flagsSizeTwo with overlap := 5 }
      (Or.inr ⟨by decide, by decide⟩) genEnvEmptyDocs ".budgie/docs"⟩

/-! ### Claim C2 -/

/-- Counterexample for claim C2: under the whole-file strategy, chunking an
empty file produces one chunk of empty text, and generate-embeddings
appends a record for it (with a successful embedder). -/
theorem chunksFor_empty_wholefile_counterexample :
    chunksFor flagsWholeFile "" = [""] ∧
    perFileRecords (fun _ => .ok "") (fun _ => .ok [1]) flagsWholeFile "docs/empty.md" =
      [⟨"empty.md-chunk-1", "", [1]⟩] :=
  ⟨rfl, rfl⟩

/-- Claim C2 as amended: the four splitting strategies (markdown hierarchy,
markdown sections, delimiter, fixed-size) produce an empty chunk sequence
on empty input, but the whole-file strategy produces a single chunk whose
text is the (empty) file content. -/
theorem chunksFor_empty_input (flags : GenFlags) :
    (flags.files = false → chunksFor flags "" = []) ∧
    (flags.files = true → chunksFor flags "" = [""]) := by
  constructor
  · intro h
    unfold chunksFor
    rw [h]
    simp only [Bool.false_eq_true, if_false]
    split_ifs <;> rfl
  · intro h
    unfold chunksFor
    rw [h]
    rfl

/-- Concrete witness for claim C2 (amended), exercising both sides. -/
theorem chunksFor_empty_input_witness :
    chunksFor flagsDefault "" = [] ∧ chunksFor flagsWholeFile "" = [""] :=
  ⟨(chunksFor_empty_input flagsDefault).1 rfl,
   (chunksFor_empty_input flagsWholeFile).2 rfl⟩

/-! ### Claim C7 -/

/-- Normal form of the inner chunk loop: appended records are exactly the
chunks whose embedding succeeded, and the counter advances by their
number.  A failing chunk is skipped without affecting the rest. -/
theorem embedChunks_eq (embed : String → Except String (List ℚ)) (filePath : String) :
    ∀ (pairs : List (Nat × String)) (store : List EmbeddingRecord) (count : Nat),
      embedChunks embed filePath pairs store count =
        (store ++ pairs.filterMap (embedRecord embed filePath),
         count + (pairs.filterMap (embedRecord embed filePath)).length) := by
  intro pairs
  induction pairs with
  | nil => intro store count; simp [embedChunks]
  | cons hd tl ih =>
    intro store count
    obtain ⟨idx, chunk⟩ := hd
    simp only [embedChunks]
    cases h : embed chunk with
    | error e =>
      simp only [h, ih]
      simp [embedRecord, h, List.filterMap_cons]
    | ok vec =>
      simp only [h, ih]
      simp [embedRecord, h, List.filterMap_cons, List.append_assoc]
      omega

/-- Normal form of the outer file loop: the final store is the
concatenation of the contribution of each file (unreadable files contribute
nothing, later files are unaffected), and the final count is the total
number of successfully embedded chunks. -/
theorem indexLoop_eq (read : String → Except String String)
    (embed : String → Except String (List ℚ)) (flags : GenFlags) :
    ∀ (files : List String) (store : List EmbeddingRecord) (count : Nat),
      indexLoop read embed flags files store count =
        (store ++ (files.map (perFileRecords read embed flags)).flatten,
         count + (files.map (perFileRecords read embed flags)).flatten.length) := by
  intro files
  induction files with
  | nil => intro store count; simp [indexLoop]
  | cons f rest ih =>
    intro store count
    simp only [indexLoop]
    cases h : read f with
    | error e =>
      simp only [h, ih]
      simp [perFileRecords, h]
    | ok content =>
      simp only [h, embedChunks_eq, ih]
      simp [perFileRecords, h, List.append_assoc]
      omega

/-- Claim C7: in a generate-embeddings run, a read failure skips only that
file, an embedding failure skips only that chunk, the run completes,
persists the resulting store, and reports a count equal to the number of
successfully embedded chunks: the run returns exactly the concatenation
of the independently-determined contribution of each file, paired with its
length. -/
theorem runGenerateEmbeddings_skips_and_counts (env : GenEnv) (flags : GenFlags)
    (docsPath : String) (cfg : Config) (files : List String)
    (hv : validateFlags flags = .ok ()) (hc : env.loadConfig = .ok cfg)
    (hm : ¬cfg.embeddingModel = "") (ha : env.newAgent = .ok ())
    (hf : env.findFiles docsPath (fileExtensionOf flags) = .ok files)
    (hp : env.persist ((files.map (perFileRecords env.readFile env.embed flags)).flatten) =
      .ok ()) :
    runGenerateEmbeddings env flags docsPath =
      .ok ((files.map (perFileRecords env.readFile env.embed flags)).flatten,
           (files.map (perFileRecords env.readFile env.embed flags)).flatten.length) := by
  unfold runGenerateEmbeddings
  rw [hv, hc]
  show (if cfg.embeddingModel = "" then _ else _ : Except String _) = _
  rw [if_neg hm, ha, hf]
  show (env.persist (indexLoop env.readFile env.embed flags files [] 0).1).bind _ = _
  rw [indexLoop_eq]
  simp only [List.nil_append, Nat.zero_add, hp]
  rfl

/-- Concrete witness for claim C7: three discovered files, the second
unreadable, and one chunk of the third failing to embed; the run succeeds
with the surviving chunks of the two other files and count 3. -/
theorem runGenerateEmbeddings_skips_and_counts_witness :
    runGenerateEmbeddings genEnvMixed flagsSizeTwo ".budgie/docs" =
      .ok (storeMixedExpected, 3) := by
  have h := runGenerateEmbeddings_skips_and_counts genEnvMixed flagsSizeTwo ".budgie/docs"
    configOk ["docs/a.md", "docs/bad.md", "docs/b.md"] rfl rfl (by decide) rfl rfl rfl
  rw [h]
  rfl

/-! ### Claim C3 -/

/-- With enough fuel, `decimalDigitsAux` computes the little-endian decimal
digit characters given by `Nat.digits`. -/
theorem decimalDigitsAux_eq_digits :
    ∀ fuel n : Nat, n ≤ fuel →
      decimalDigitsAux fuel n = (Nat.digits 10 n).map Nat.digitChar := by
  intro fuel
  induction fuel with
  | zero =>
    intro n hn
    have : n = 0 := Nat.le_zero.mp hn
    subst this
    simp [decimalDigitsAux]
  | succ fuel ih =>
    intro n hn
    cases n with
    | zero => simp [decimalDigitsAux]
    | succ m =>
      have hdiv : (m + 1) / 10 < m + 1 := Nat.div_lt_self (Nat.succ_pos m) (by norm_num)
      rw [show decimalDigitsAux (fuel + 1) (m + 1) =
            Nat.digitChar ((m + 1) % 10) :: decimalDigitsAux fuel ((m + 1) / 10) from rfl]
      rw [Nat.digits_def' (by norm_num : (1 : ℕ) < 10) (Nat.succ_pos m), List.map_cons]
      rw [ih ((m + 1) / 10) (by omega)]

/-- The function `Nat.digitChar` is injective below 10. -/
theorem digitChar_inj_lt : ∀ a, a < 10 → ∀ b, b < 10 →
    Nat.digitChar a = Nat.digitChar b → a = b := by decide

/-- The function `Nat.digitChar` yields digit characters below 10. -/
theorem digitChar_isDigit : ∀ d, d < 10 → (Nat.digitChar d).isDigit = true := by decide

/-- Mapping `Nat.digitChar` over digit lists is injective. -/
theorem map_digitChar_inj :
    ∀ l1 l2 : List ℕ, (∀ d ∈ l1, d < 10) → (∀ d ∈ l2, d < 10) →
      l1.map Nat.digitChar = l2.map Nat.digitChar → l1 = l2 := by
  intro l1
  induction l1 with
  | nil =>
    intro l2 _ _ h
    cases l2 with
    | nil => rfl
    | cons b bs => simp at h
  | cons a as ih =>
    intro l2 h1 h2 h
    cases l2 with
    | nil => simp at h
    | cons b bs =>
      simp only [List.map_cons, List.cons.injEq] at h
      have hab : a = b :=
        digitChar_inj_lt a (h1 a (by simp)) b (h2 b (by simp)) h.1
      rw [hab, ih bs (fun d hd => h1 d (by simp [hd])) (fun d hd => h2 d (by simp [hd])) h.2]

/-- For positive `n`, the characters of `natDecimal n` are the reversed
digit characters of `n`. -/
theorem natDecimal_pos_data {n : Nat} (h : 0 < n) :
    (natDecimal n).data = ((Nat.digits 10 n).map Nat.digitChar).reverse := by
  unfold natDecimal
  rw [if_neg (by omega), decimalDigitsAux_eq_digits n n le_rfl]
  rfl

/-- Decimal notation is injective: distinct naturals have distinct
notations. -/
theorem natDecimal_inj {m n : Nat} (h : natDecimal m = natDecimal n) : m = n := by
  have hd : (natDecimal m).data = (natDecimal n).data := by rw [h]
  have zero_case : ∀ k : Nat, 0 < k →
      (natDecimal 0).data = (natDecimal k).data → False := by
    intro k hk hdk
    rw [natDecimal_pos_data hk] at hdk
    have : ['0'] = ((Nat.digits 10 k).map Nat.digitChar).reverse := hdk
    have h2 : (Nat.digits 10 k).map Nat.digitChar = ['0'] := by
      rw [← List.reverse_inj]
      simpa using this.symm
    have h3 : Nat.digits 10 k = [0] :=
      map_digitChar_inj (Nat.digits 10 k) [0]
        (fun d hd => Nat.digits_lt_base (by norm_num) hd)
        (by intro d hd; simp at hd; omega) h2
    have h4 := Nat.ofDigits_digits 10 k
    rw [h3] at h4
    simp [Nat.ofDigits] at h4
    omega
  rcases Nat.eq_zero_or_pos m with hm | hm
  · rcases Nat.eq_zero_or_pos n with hn | hn
    · omega
    · exact absurd (hm ▸ hd) (fun hx => zero_case n hn hx)
  · rcases Nat.eq_zero_or_pos n with hn | hn
    · exact absurd (hn ▸ hd.symm) (fun hx => zero_case m hm hx)
    · rw [natDecimal_pos_data hm, natDecimal_pos_data hn] at hd
      exact Nat.digits_inj_iff.mp
        (map_digitChar_inj _ _
          (fun d hdm => Nat.digits_lt_base (by norm_num) hdm)
          (fun d hdn => Nat.digits_lt_base (by norm_num) hdn)
          (List.reverse_inj.mp hd))

/-- Every character of a decimal notation is a digit character. -/
theorem natDecimal_isDigit {n : Nat} : ∀ c ∈ (natDecimal n).data, c.isDigit = true := by
  intro c hc
  rcases Nat.eq_zero_or_pos n with h | h
  · subst h
    have : c = '0' := by simpa [natDecimal, decimalDigitsAux] using hc
    subst this
    decide
  · rw [natDecimal_pos_data h, List.mem_reverse] at hc
    obtain ⟨d, hd, rfl⟩ := List.mem_map.mp hc
    exact digitChar_isDigit d (Nat.digits_lt_base (by norm_num) hd)

/-- A decomposition `digit-prefix ++ rest` with a non-digit first rest
character is unique. -/
theorem digit_prefix_unique :
    ∀ p1 p2 r1 r2 : List Char,
      (∀ c ∈ p1, c.isDigit = true) → (∀ c ∈ p2, c.isDigit = true) →
      (∀ c, r1.head? = some c → c.isDigit = false) →
      (∀ c, r2.head? = some c → c.isDigit = false) →
      p1 ++ r1 = p2 ++ r2 → p1 = p2 ∧ r1 = r2 := by
  intro p1
  induction p1 with
  | nil =>
    intro p2 r1 r2 h1 h2 hr1 hr2 h
    cases p2 with
    | nil => exact ⟨rfl, h⟩
    | cons b bs =>
      exfalso
      simp only [List.nil_append, List.cons_append] at h
      have hb := h2 b (by simp)
      have hb2 := hr1 b (by rw [h]; rfl)
      simp [hb] at hb2
  | cons a as ih =>
    intro p2 r1 r2 h1 h2 hr1 hr2 h
    cases p2 with
    | nil =>
      exfalso
      simp only [List.nil_append, List.cons_append] at h
      have ha := h1 a (by simp)
      have ha2 := hr2 a (by rw [← h]; rfl)
      simp [ha] at ha2
    | cons b bs =>
      simp only [List.cons_append, List.cons.injEq] at h
      obtain ⟨hab, h⟩ := h
      obtain ⟨he, hr⟩ := ih bs r1 r2 (fun c hc => h1 c (by simp [hc]))
        (fun c hc => h2 c (by simp [hc])) hr1 hr2 h
      exact ⟨by rw [hab, he], hr⟩

/-- Equal chunk ids force equal basenames and equal chunk indices: the id
`<basename>-chunk-<n>` determines the pair. -/
theorem chunkID_inj {f g : String} {i j : Nat} (h : chunkID f i = chunkID g j) :
    baseName f = baseName g ∧ i = j := by
  have hd : (natDecimal (i + 1)).data.reverse ++
        ("-chunk-".data.reverse ++ (baseName f).data.reverse) =
      (natDecimal (j + 1)).data.reverse ++
        ("-chunk-".data.reverse ++ (baseName g).data.reverse) := by
    have hrev : (chunkID f i).data.reverse = (chunkID g j).data.reverse := by rw [h]
    simpa [chunkID, List.reverse_append, List.append_assoc] using hrev
  have hsep : ∀ (s : List Char) (c : Char),
      ("-chunk-".data.reverse ++ s).head? = some c → c.isDigit = false := by
    intro s c hc
    have : some '-' = some c := hc
    have hcm : c = '-' := by injection this with h2; exact h2.symm
    subst hcm
    decide
  obtain ⟨h1, h2⟩ := digit_prefix_unique _ _ _ _
    (fun c hc => natDecimal_isDigit c (List.mem_reverse.mp hc))
    (fun c hc => natDecimal_isDigit c (List.mem_reverse.mp hc))
    (hsep _) (hsep _) hd
  constructor
  · exact String.ext (List.reverse_inj.mp (List.append_cancel_left h2))
  · have := natDecimal_inj (String.ext (List.reverse_inj.mp h1))
    omega

/-- The ids of the records kept by `filterMap (embedRecord ...)` are
`chunkID filePath` applied to the indices of the successfully embedded
chunks. -/
theorem map_id_filterMap_embed (embed : String → Except String (List ℚ))
    (filePath : String) :
    ∀ l : List (Nat × String),
      (l.filterMap (embedRecord embed filePath)).map (fun r => r.id) =
        (l.filterMap (fun p => match embed p.2 with
          | .error _ => none
          | .ok _ => some p.1)).map (chunkID filePath) := by
  intro l
  induction l with
  | nil => simp
  | cons a l ih =>
    simp only [List.filterMap_cons]
    cases he : embed a.2 with
    | error e2 => simpa [embedRecord, he] using ih
    | ok v => simpa [embedRecord, he] using ih

/-- The ids contributed by one file are `chunkID filePath` applied to a
duplicate-free list of chunk indices. -/
theorem perFileRecords_ids (read : String → Except String String)
    (embed : String → Except String (List ℚ)) (flags : GenFlags) (filePath : String) :
    ∃ idxs : List Nat, idxs.Nodup ∧
      (perFileRecords read embed flags filePath).map (fun r => r.id) =
        idxs.map (chunkID filePath) := by
  unfold perFileRecords
  cases h : read filePath with
  | error e => exact ⟨[], List.nodup_nil, by simp⟩
  | ok content =>
    refine ⟨(chunksFor flags content).enum.filterMap
        (fun p => match embed p.2 with | .error _ => none | .ok _ => some p.1), ?_, ?_⟩
    · have hsub : ∀ l : List (Nat × String),
          (l.filterMap (fun p => match embed p.2 with
            | .error _ => none
            | .ok _ => some p.1)).Sublist (l.map Prod.fst) := by
        intro l
        induction l with
        | nil => simp
        | cons a l ih =>
          simp only [List.filterMap_cons, List.map_cons]
          cases he : embed a.2 with
          | error e2 => exact ih.cons _
          | ok v => exact ih.cons₂ _
      have hs := hsub (chunksFor flags content).enum
      rw [List.enum_map_fst] at hs
      exact (List.nodup_range _).sublist hs
    · exact map_id_filterMap_embed embed filePath (chunksFor flags content).enum

/-- Counterexample for claim C3: two discovered files with the same
basename in different directories produce the same chunk id twice, so
store ids are not pairwise distinct. -/
theorem indexLoop_ids_duplicate_counterexample :
    ((indexLoop (fun _ => Except.ok "x") (fun _ => Except.ok [1]) flagsWholeFile
        ["dir1/README.md", "dir2/README.md"] [] 0).1).map (fun r => r.id) =
      ["README.md-chunk-1", "README.md-chunk-1"] ∧
    ¬(((indexLoop (fun _ => Except.ok "x") (fun _ => Except.ok [1]) flagsWholeFile
        ["dir1/README.md", "dir2/README.md"] [] 0).1).map (fun r => r.id)).Nodup :=
  ⟨rfl, by decide⟩

/-- Claim C3 as amended: ids `<basename>-chunk-<n>` are pairwise distinct
within the chunks of each file, and across the whole store whenever the
discovered files have pairwise distinct basenames; files sharing a
basename can collide. -/
theorem indexLoop_ids_nodup (read : String → Except String String)
    (embed : String → Except String (List ℚ)) (flags : GenFlags) (files : List String)
    (h : (files.map baseName).Nodup) :
    (((indexLoop read embed flags files [] 0).1).map (fun r => r.id)).Nodup := by
  rw [indexLoop_eq]
  simp only [List.nil_append]
  rw [List.map_flatten, List.map_map, List.nodup_flatten]
  constructor
  · intro l hl
    obtain ⟨f, hf, rfl⟩ := List.mem_map.mp hl
    obtain ⟨idxs, hnd, heq⟩ := perFileRecords_ids read embed flags f
    show ((perFileRecords read embed flags f).map (fun r => r.id)).Nodup
    rw [heq]
    exact hnd.map_on (fun x _ y _ hxy => (chunkID_inj hxy).2)
  · rw [List.pairwise_map]
    have hp : files.Pairwise (fun f g => baseName f ≠ baseName g) :=
      List.pairwise_map.mp h
    refine hp.imp ?_
    intro f g hne
    intro x hxf hxg
    obtain ⟨idxs1, _, heq1⟩ := perFileRecords_ids read embed flags f
    obtain ⟨idxs2, _, heq2⟩ := perFileRecords_ids read embed flags g
    have hxf2 : x ∈ idxs1.map (chunkID f) := by
      rw [← heq1]; exact hxf
    have hxg2 : x ∈ idxs2.map (chunkID g) := by
      rw [← heq2]; exact hxg
    obtain ⟨i, _, rfl⟩ := List.mem_map.mp hxf2
    obtain ⟨j, _, hij⟩ := List.mem_map.mp hxg2
    exact hne (chunkID_inj hij).1.symm

/-- Concrete witness for claim C3 (amended): two files with distinct
basenames index to a duplicate-free id list. -/
theorem indexLoop_ids_nodup_witness :
    ((["dir1/a.md", "dir2/b.md"].map baseName).Nodup) ∧
    (((indexLoop (fun _ => Except.ok "x") (fun _ => Except.ok [1]) flagsWholeFile
        ["dir1/a.md", "dir2/b.md"] [] 0).1).map (fun r => r.id)).Nodup :=
  ⟨by decide, indexLoop_ids_nodup _ _ _ _ (by decide)⟩

/-! ### Claim C4 -/

/-- The value of an `enumFrom` entry is an element of the underlying list. -/
theorem snd_mem_of_mem_enumFrom {α : Type _} :
    ∀ (l : List α) (n : Nat) (p : Nat × α), p ∈ l.enumFrom n → p.2 ∈ l := by
  intro l
  induction l with
  | nil => intro n p h; simp [List.enumFrom] at h
  | cons a l ih =>
    intro n p h
    simp only [List.enumFrom, List.mem_cons] at h
    rcases h with h | h
    · subst h; simp
    · simp [ih _ _ h]

/-- The value of an `enum` entry is an element of the underlying list. -/
theorem snd_mem_of_mem_enum {α : Type _} {l : List α} {p : Nat × α}
    (h : p ∈ l.enum) : p.2 ∈ l :=
  snd_mem_of_mem_enumFrom l 0 p h

/-- Claim C4: the store search returns only record contents whose score
against the query embedding is at least the threshold, each paired with
the cosine score of an actual store record; the output is sorted in
descending score order; and the tagged result is a permutation of the
threshold-filtered scored records sorted by `searchLE`, whose tie-break
is the original insertion index. -/
theorem storeSearch_spec (cos : List ℚ → List ℚ → ℚ) (store : List EmbeddingRecord)
    (queryVector : List ℚ) (threshold : ℚ) :
    (∀ p ∈ storeSearch cos store queryVector threshold,
        threshold ≤ p.2 ∧ ∃ r ∈ store, p.1 = r.content ∧ p.2 = cos queryVector r.vector) ∧
    List.Sorted (fun p q : String × ℚ => q.2 ≤ p.2)
      (storeSearch cos store queryVector threshold) ∧
    List.Sorted searchLE (storeSearchTagged cos store queryVector threshold) ∧
    List.Perm (storeSearchTagged cos store queryVector threshold)
      (((store.enum).map (fun p => (p.1, p.2.content, cos queryVector p.2.vector))).filter
        (fun x => threshold ≤ x.2.2)) := by
  have hsorted : List.Sorted searchLE (storeSearchTagged cos store queryVector threshold) :=
    List.sorted_insertionSort searchLE _
  have hperm : List.Perm (storeSearchTagged cos store queryVector threshold)
      (((store.enum).map (fun p => (p.1, p.2.content, cos queryVector p.2.vector))).filter
        (fun x => threshold ≤ x.2.2)) :=
    List.perm_insertionSort searchLE _
  refine ⟨?_, ?_, hsorted, hperm⟩
  · intro p hp
    obtain ⟨x, hx, rfl⟩ := List.mem_map.mp hp
    have hx2 := hperm.subset hx
    obtain ⟨hmem, hcond⟩ := List.mem_filter.mp hx2
    obtain ⟨pr, hpr, hpx⟩ := List.mem_map.mp hmem
    subst hpx
    refine ⟨by simpa using hcond, pr.2, snd_mem_of_mem_enum hpr, rfl, rfl⟩
  · exact List.Pairwise.map _
      (fun a b hab => by
        rcases hab with hlt | ⟨heq, _⟩
        · exact le_of_lt hlt
        · exact le_of_eq heq.symm)
      hsorted

/-- Concrete witness for claim C4: the sample search keeps the three
records at or above the threshold, ranks the top score first and breaks
the score tie by insertion order; the membership premise of the theorem
is discharged at the concrete result `("A", 9)`. -/
theorem storeSearch_spec_witness :
    storeSearch cosHead storeSample [1] 7 = [("D", 10), ("A", 9), ("C", 9)] ∧
    ((7 : ℚ) ≤ ("A", (9 : ℚ)).2 ∧
      ∃ r ∈ storeSample, ("A", (9 : ℚ)).1 = r.content ∧
        ("A", (9 : ℚ)).2 = cosHead [1] r.vector) :=
  ⟨by decide, (storeSearch_spec cosHead storeSample [1] 7).1 ("A", 9) (by decide)⟩

/-! ### Claims C8, C9, C10 -/

/-- Characterization of the message list `processQuestion` assembles when
config loading and the system-file read succeed and no use file is given:
the system message, then — only when the similarity list is non-empty —
exactly one user-role context message, then the question of the user. -/
theorem processQuestion_eq (env : AskEnv) (cfg : Config)
    (q sysFile sys : String) (ragEnabled : Bool)
    (hc : env.loadConfig = .ok cfg) (hs : env.readFile sysFile = .ok sys) :
    processQuestion env q sysFile "" ragEnabled =
      .ok ((if (if (ragEnabled || goHasPre q "#rag ") = true then
                  computeSimilarities env.searchEnv cfg (goTrimPre q "#rag ")
                else []).length > 0 then
              [ChatMessage.mk Role.system sys,
               ChatMessage.mk Role.user (contextMessage
                 (if (ragEnabled || goHasPre q "#rag ") = true then
                    computeSimilarities env.searchEnv cfg (goTrimPre q "#rag ")
                  else []))]
            else [ChatMessage.mk Role.system sys]) ++
           [ChatMessage.mk Role.user (goTrimPre q "#rag ")]) := by
  unfold processQuestion
  rw [hc, hs]
  rfl

/-- Claim C8: in both query paths, a non-empty similarity-search result
list yields exactly one synthetic context message — the fixed label
followed by the results joined by blank lines — inserted before the
question of the user, and an empty result list yields none. -/
theorem context_message_insertion (env : AskEnv) (cfg : Config)
    (q sysFile sys : String) (ragEnabled : Bool) (msgs : List ChatMessage)
    (sims : List String)
    (hc : env.loadConfig = .ok cfg) (hs : env.readFile sysFile = .ok sys)
    (hsims : sims = (if (ragEnabled || goHasPre q "#rag ") = true then
        computeSimilarities env.searchEnv cfg (goTrimPre q "#rag ") else [])) :
    processQuestion env q sysFile "" ragEnabled =
      .ok ((if sims.length > 0 then
              [ChatMessage.mk Role.system sys,
               ChatMessage.mk Role.user (contextMessage sims)]
            else [ChatMessage.mk Role.system sys]) ++
           [ChatMessage.mk Role.user (goTrimPre q "#rag ")]) ∧
    runAskLoopStep env.searchEnv cfg msgs q ragEnabled =
      (if sims.length > 0 then
        msgs ++ [ChatMessage.mk Role.system (contextMessage sims)]
       else msgs) ++ [ChatMessage.mk Role.user (goTrimPre q "#rag ")] := by
  subst hsims
  exact ⟨processQuestion_eq env cfg q sysFile sys ragEnabled hc hs, rfl⟩

/-- Concrete witness for claim C8, on both a hit and a miss. -/
theorem context_message_insertion_witness :
    processQuestion askEnvTwoDocs "how do channels work?" ".budgie/budgie.system.md" "" true =
      .ok [ChatMessage.mk Role.system "You are budgie.",
           ChatMessage.mk Role.user
             "Relevant context from documentation:\n\ndoc one\n\ndoc two",
           ChatMessage.mk Role.user "how do channels work?"] ∧
    processQuestion askEnvNoHits "how do channels work?" ".budgie/budgie.system.md" "" true =
      .ok [ChatMessage.mk Role.system "You are budgie.",
           ChatMessage.mk Role.user "how do channels work?"] := by
  have h1 := (context_message_insertion askEnvTwoDocs configOk "how do channels work?"
    ".budgie/budgie.system.md" "You are budgie." true [] ["doc one", "doc two"]
    rfl rfl rfl).1
  have h2 := (context_message_insertion askEnvNoHits configOk "how do channels work?"
    ".budgie/budgie.system.md" "You are budgie." true [] []
    rfl rfl rfl).1
  exact ⟨h1, h2⟩

/-- Claim C9: the same non-empty search result is inserted with the user
role by `processQuestion` (single-question mode) but with the system role
by the `RunAsk` interactive loop — the two paths present the retrieved
context to the model under different roles. -/
theorem context_message_role_difference (env : AskEnv) (cfg : Config)
    (q sysFile sys : String) (msgs : List ChatMessage) (sims : List String)
    (hc : env.loadConfig = .ok cfg) (hs : env.readFile sysFile = .ok sys)
    (hsims : computeSimilarities env.searchEnv cfg (goTrimPre q "#rag ") = sims)
    (hne : sims ≠ []) :
    processQuestion env q sysFile "" true =
      .ok [ChatMessage.mk Role.system sys,
           ChatMessage.mk Role.user (contextMessage sims),
           ChatMessage.mk Role.user (goTrimPre q "#rag ")] ∧
    runAskLoopStep env.searchEnv cfg msgs q true =
      msgs ++ [ChatMessage.mk Role.system (contextMessage sims),
               ChatMessage.mk Role.user (goTrimPre q "#rag ")] ∧
    Role.user ≠ Role.system := by
  have hlen : sims.length > 0 := by
    cases sims with
    | nil => exact absurd rfl hne
    | cons a l => simp
  refine ⟨?_, ?_, by decide⟩
  · have h := processQuestion_eq env cfg q sysFile sys true hc hs
    rw [hsims] at h
    simp only [Bool.true_or, eq_self_iff_true, if_true] at h
    rw [if_pos hlen] at h
    exact h
  · have h2 : runAskLoopStep env.searchEnv cfg msgs q true =
        (if (if (true || goHasPre q "#rag ") = true then
              computeSimilarities env.searchEnv cfg (goTrimPre q "#rag ")
            else []).length > 0 then
          msgs ++ [ChatMessage.mk Role.system (contextMessage
            (if (true || goHasPre q "#rag ") = true then
              computeSimilarities env.searchEnv cfg (goTrimPre q "#rag ")
            else []))]
         else msgs) ++ [ChatMessage.mk Role.user (goTrimPre q "#rag ")] := rfl
    rw [hsims] at h2
    simp only [Bool.true_or, eq_self_iff_true, if_true] at h2
    rw [if_pos hlen] at h2
    rw [h2]
    simp

/-- Concrete witness for claim C9: a question carrying the `#rag ` prefix,
with two search hits; the stripped question and the two differently-rolled
context messages appear. -/
theorem context_message_role_difference_witness :
    processQuestion askEnvTwoDocs "#rag explain goroutines" ".budgie/budgie.system.md" "" true =
      .ok [ChatMessage.mk Role.system "You are budgie.",
           ChatMessage.mk Role.user
             "Relevant context from documentation:

doc one

doc two",
           ChatMessage.mk Role.user "explain goroutines"] ∧
    runAskLoopStep askEnvTwoDocs.searchEnv configOk [] "#rag explain goroutines" true =
      [ChatMessage.mk Role.system
         "Relevant context from documentation:

doc one

doc two",
       ChatMessage.mk Role.user "explain goroutines"] := by
  have h := context_message_role_difference askEnvTwoDocs configOk "#rag explain goroutines"
    ".budgie/budgie.system.md" "You are budgie." [] ["doc one", "doc two"]
    rfl rfl rfl (by decide)
  exact ⟨h.1, h.2.1⟩

/-! ### Claim C10 -/

/-- Claim C10: with the embeddings file present but an empty
embedding-model config field, search-agent creation returns an error
(rather than the silent empty result used when the index is absent, which
conjunct two restates for every configuration including an empty-model
one, since the existence check runs first), and `processQuestion` still
proceeds to build the conversation without augmentation. -/
theorem createSearchAgent_empty_model_error (env : SearchEnv) (config : Config)
    (hex : env.embeddingsFileExists = true) (hm : config.embeddingModel = "") :
    createSearchAgent env config = .error "embedding-model not specified in config file" ∧
    (∀ (env2 : SearchEnv) (cfg2 : Config), env2.embeddingsFileExists = false →
      createSearchAgent env2 cfg2 = .ok none) ∧
    ∀ (aenv : AskEnv) (q sysFile sys : String),
      aenv.loadConfig = .ok config → aenv.readFile sysFile = .ok sys →
      aenv.searchEnv = env →
      processQuestion aenv q sysFile "" true =
        .ok [ChatMessage.mk Role.system sys,
             ChatMessage.mk Role.user (goTrimPre q "#rag ")] := by
  have herr : createSearchAgent env config =
      .error "embedding-model not specified in config file" := by
    unfold createSearchAgent
    rw [hex, hm]
    rfl
  refine ⟨herr, fun env2 cfg2 h2 => by unfold createSearchAgent; rw [h2]; rfl, ?_⟩
  intro aenv q sysFile sys hc hs hse
  have hcs : computeSimilarities aenv.searchEnv config (goTrimPre q "#rag ") = [] := by
    unfold computeSimilarities
    rw [hse, herr]
  have h := processQuestion_eq aenv config q sysFile sys true hc hs
  rw [hcs] at h
  simp only [Bool.true_or, eq_self_iff_true, if_true] at h
  rw [if_neg (by simp)] at h
  exact h

/-- Concrete witness for claim C10. -/
theorem createSearchAgent_empty_model_error_witness :
    createSearchAgent searchEnvNoHits configNoModel =
      .error "embedding-model not specified in config file" ∧
    createSearchAgent searchEnvNoIndex configNoModel = .ok none ∧
    processQuestion askEnvNoModel "what is a goroutine?" ".budgie/budgie.system.md" "" true =
      .ok [ChatMessage.mk Role.system "You are budgie.",
           ChatMessage.mk Role.user "what is a goroutine?"] := by
  have h := createSearchAgent_empty_model_error searchEnvNoHits configNoModel rfl rfl
  exact ⟨h.1, h.2.1 searchEnvNoIndex configNoModel rfl,
         h.2.2 askEnvNoModel "what is a goroutine?" ".budgie/budgie.system.md"
           "You are budgie." rfl rfl rfl⟩
